import Mathlib

/-!
The camunda_client worker: handler registry, worker scheduler, task handle and gateway
error mapping.

A shallow embedding of `pkg/models/models.go`, `pkg/client/client.go` and
`pkg/worker/worker.go`.

Conventions of the embedding.

* A Go `error` result is an `Option GoError` (`none` is `nil`).
* The remote engine and the transport are an explicit state `σ` threaded through
  every gateway call; a `Client σ` is an implementation of the Go interface
  `client.Client`, with arbitrary behaviour.
* A Go `map[string]V` is a key-unique association list (`GoMap`); the order in
  which `range` visits a map is not fixed by Go, so `poll` receives the visiting
  order as an argument.
* `int64` and `time.Duration` values are only copied, never computed with; they
  are `Int`.
* Interface and func values held by a pool (the broker client, registered
  handlers) are non-nil; the nil func value only arises as the zero value read
  from a missing map entry, where calling it panics.
* A handler is a terminating program over its `Task`: it may call `Complete` and
  `Fail` on (possibly modified copies of) the Task any number of times and
  branch on the results.
* The mutex of `WorkerPool` is not modelled: all operations are sequential.
-/

namespace Camunda

/-! ## Errors (`github.com/pkg/errors`) -/

/-- A Go `error` value: `New` is `errors.New` and `errors.Errorf` (after formatting),
`Wrap` is `errors.Wrap` on a non-nil error, `external` is an error produced outside the
repository (`net/http`, `encoding/json`). -/
inductive GoError where
  | New (text : String)
  | Wrap (err : GoError) (message : String)
  | external (text : String)
  deriving DecidableEq, Repr

/-- The root cause, `errors.Cause`. -/
def GoError.Cause : GoError → GoError
  | .Wrap err _ => GoError.Cause err
  | e => e

/-- The text of `err.Error()`. -/
def GoError.Error : GoError → String
  | .New text => text
  | .Wrap err message => message ++ ": " ++ GoError.Error err
  | .external text => text

/-! ## `pkg/models` -/

/-- The dynamic `interface{}` payload of a variable. -/
inductive AnyValue where
  | null
  | bool (b : Bool)
  | number (n : Int)
  | string (s : String)
  deriving DecidableEq, Repr

/-- The struct `models.Variable` (`Type_` is its field `Type`). -/
structure Variable where
  Value : AnyValue
  Type_ : String
  deriving DecidableEq, Repr

/-- A `map[string]models.Variable`; it is only ever copied. -/
abbrev VariableMap := List (String × Variable)

/-- The struct `models.Topic`. -/
structure Topic where
  TopicName : String
  LockDuration : Int
  ProcessDefinitionID : String
  ProcessDefinitionKey : String
  deriving DecidableEq, Repr

/-! ## `pkg/client`: request and response types, the `Client` interface -/

/-- The struct `client.ResponseErrorBody`. -/
structure ResponseErrorBody where
  Type_ : String
  Message : String
  deriving DecidableEq, Repr

/-- The struct `client.StartProcessInstanceInput`. -/
structure StartProcessInstanceInput where
  ProcessID : String
  BusinessKey : String
  Variables : VariableMap
  deriving DecidableEq, Repr

/-- The struct `client.FetchAndLockExternalTasksInput`. -/
structure FetchAndLockExternalTasksInput where
  WorkerID : String
  MaxTasks : Int
  UsePriority : Bool
  AsyncResponseTimeout : Int
  Topics : List Topic
  deriving DecidableEq, Repr

/-- The struct `client.FetchAndLockExternalTasksOutputResult`. -/
structure FetchAndLockExternalTasksOutputResult where
  ID : String
  ActivityID : String
  ExecutionID : String
  ErrorMessage : String
  ErrorDetails : String
  TopicName : String
  Retries : Int
  Variables : VariableMap
  deriving DecidableEq, Repr

/-- The struct `client.FetchAndLockExternalTasksOutput`. -/
structure FetchAndLockExternalTasksOutput where
  Results : List FetchAndLockExternalTasksOutputResult
  deriving DecidableEq, Repr

/-- The struct `client.CompleteExternalTaskInput`. -/
structure CompleteExternalTaskInput where
  WorkerID : String
  ExternalTaskID : String
  Variables : VariableMap
  deriving DecidableEq, Repr

/-- The struct `client.FailExternalTaskInput`. -/
structure FailExternalTaskInput where
  WorkerID : String
  ExternalTaskID : String
  ErrorMessage : String
  ErrorDetails : String
  Retries : Int
  RetryTimeout : Int
  deriving DecidableEq, Repr

/-- The interface `client.Client`: the four gateway operations, each a transition of the
gateway state `σ` that also yields the Go results. -/
structure Client (σ : Type) where
  StartProcessInstance : StartProcessInstanceInput → σ → Option GoError × σ
  FetchAndLockExternalTasks :
    FetchAndLockExternalTasksInput → σ → (FetchAndLockExternalTasksOutput × Option GoError) × σ
  CompleteExternalTask : CompleteExternalTaskInput → σ → Option GoError × σ
  FailExternalTask : FailExternalTaskInput → σ → Option GoError × σ

/-- The package variable `ErrInvalidInput`. -/
def ErrInvalidInput : GoError := GoError.New "invalid input"

/-- The package variable `ErrProcessNotFound`. -/
def ErrProcessNotFound : GoError := GoError.New "process not found"

/-- The package variable `ErrUnexpected`. -/
def ErrUnexpected : GoError := GoError.New "unexpected error"

/-! ## Go maps -/

/-- A Go `map[string]V`: an association list in which every key occurs at most once
(kept so by `set`). -/
structure GoMap (V : Type) where
  entries : List (String × V)

/-- The lookup `v, ok := m[k]` (`none` when `ok` is false). -/
def GoMap.lookupEntries {V : Type} : List (String × V) → String → Option V
  | [], _ => none
  | (k1, v) :: rest, k => if k1 = k then some v else GoMap.lookupEntries rest k

/-- The lookup `v, ok := m[k]` (`none` when `ok` is false). -/
def GoMap.get? {V : Type} (m : GoMap V) (k : String) : Option V :=
  GoMap.lookupEntries m.entries k

/-- The assignment `m[k] = v` on the entry list: overwrite the entry of `k`, or add one. -/
def GoMap.setEntries {V : Type} : List (String × V) → String → V → List (String × V)
  | [], k, v => [(k, v)]
  | (k1, v1) :: rest, k, v =>
    if k1 = k then (k, v) :: rest else (k1, v1) :: GoMap.setEntries rest k v

/-- The assignment `m[k] = v`. -/
def GoMap.set {V : Type} (m : GoMap V) (k : String) (v : V) : GoMap V :=
  { entries := GoMap.setEntries m.entries k v }

/-- The values held by the map, the elements a `range` visits (in some order). -/
def GoMap.values {V : Type} (m : GoMap V) : List V :=
  m.entries.map Prod.snd

/-- The result of `make(map[string]V)`. -/
def GoMap.make {V : Type} : GoMap V :=
  { entries := [] }

/-! ## `pkg/worker`: tasks -/

/-- The struct `worker.TaskDefinition`. Its unexported `client` field is never assigned or
read anywhere in the package and is left out. -/
structure TaskDefinition where
  ID : String
  ActivityID : String
  ExecutionID : String
  ErrorMessage : String
  ErrorDetails : String
  TopicName : String
  WorkerID : String
  Retries : Int
  Variables : VariableMap
  deriving DecidableEq, Repr

/-- The struct `worker.Task`: the bound client and the embedded `TaskDefinition`. -/
structure Task (σ : Type) extends TaskDefinition where
  client : Client σ

/-- The function `NewTask`. -/
def NewTask {σ : Type} (client : Client σ) (definition : TaskDefinition) : Task σ :=
  { toTaskDefinition := definition, client := client }

/-- The method `Task.Complete`. -/
def Task.Complete {σ : Type} (t : Task σ) (s : σ) : Option GoError × σ :=
  t.client.CompleteExternalTask
    { ExternalTaskID := t.ID
      Variables := t.Variables
      WorkerID := t.WorkerID } s

/-- The method `Task.Fail`: the fields of `FailExternalTaskInput` it does not set have
their zero values. -/
def Task.Fail {σ : Type} (t : Task σ) (s : σ) : Option GoError × σ :=
  t.client.FailExternalTask
    { ExternalTaskID := t.ID
      WorkerID := t.WorkerID
      ErrorMessage := ""
      ErrorDetails := ""
      Retries := 0
      RetryTimeout := 0 } s

/-! ## Handlers -/

/-- What a handler does with its Task: it returns, or calls `Complete` or `Fail` on the
Task (whose exported fields it may have changed: `definition`) and goes on according to
the result. -/
inductive HandlerProg where
  | ret
  | complete (definition : TaskDefinition) (k : Option GoError → HandlerProg)
  | fail (definition : TaskDefinition) (k : Option GoError → HandlerProg)

/-- The type `worker.TaskHandlerFunc`, `func(Task)`. -/
abbrev TaskHandlerFunc (σ : Type) := Task σ → HandlerProg

/-- Running a handler body against the gateway state; `client` is the client bound to the
Task the handler received, which a handler cannot change. -/
def HandlerProg.run {σ : Type} (client : Client σ) : HandlerProg → σ → σ
  | .ret, s => s
  | .complete definition k, s =>
    let r := Task.Complete (NewTask client definition) s
    HandlerProg.run client (k r.1) r.2
  | .fail definition k, s =>
    let r := Task.Fail (NewTask client definition) s
    HandlerProg.run client (k r.1) r.2

/-- The call `handler(task)`. -/
def TaskHandlerFunc.call {σ : Type} (handler : TaskHandlerFunc σ) (task : Task σ) (s : σ) : σ :=
  HandlerProg.run task.client (handler task) s

/-! ## `pkg/worker`: the pool -/

/-- The struct `worker.WorkerPoolConfig`. -/
structure WorkerPoolConfig (σ : Type) where
  MaxTasks : Int
  WorkerID : String
  UsePriority : Bool
  BrokerClient : Client σ
  PollInterval : Int

/-- The anonymous struct stored in `WorkerPool.taskHandlers`. -/
structure TaskHandlerEntry (σ : Type) where
  topic : Topic
  handler : TaskHandlerFunc σ

/-- The struct `worker.WorkerPool` (without its mutex). -/
structure WorkerPool (σ : Type) where
  cfg : WorkerPoolConfig σ
  taskHandlers : GoMap (TaskHandlerEntry σ)

/-- The function `NewWorkerPool`. -/
def NewWorkerPool {σ : Type} (cfg : WorkerPoolConfig σ) : WorkerPool σ :=
  { cfg := cfg, taskHandlers := GoMap.make }

/-- The method `WorkerPool.RegisterExternalTaskHandler`: the pool afterwards and the
returned error. -/
def WorkerPool.RegisterExternalTaskHandler {σ : Type} (w : WorkerPool σ) (topic : Topic)
    (handler : TaskHandlerFunc σ) : WorkerPool σ × Option GoError :=
  match w.taskHandlers.get? topic.TopicName with
  | some _ => (w, some (GoError.New ("existing handler for topic: " ++ topic.TopicName)))
  | none =>
    ({ w with
        taskHandlers :=
          w.taskHandlers.set topic.TopicName { topic := topic, handler := handler } },
      none)

/-- How a call of `poll` ends: it returns an error value (`none` is `nil`), or it panics. -/
inductive Outcome where
  | returned (err : Option GoError)
  | panicked
  deriving DecidableEq, Repr

/-- The request `poll` builds (lines 119 to 127): the configuration fields, and the topic of
every entry the `range` over `taskHandlers` visits, appended in visiting order. -/
def WorkerPool.fetchInput {σ : Type} (w : WorkerPool σ) (order : List (TaskHandlerEntry σ)) :
    FetchAndLockExternalTasksInput :=
  order.foldl
    (fun input taskHandler => { input with Topics := input.Topics ++ [taskHandler.topic] })
    { WorkerID := w.cfg.WorkerID
      MaxTasks := w.cfg.MaxTasks
      UsePriority := w.cfg.UsePriority
      AsyncResponseTimeout := 0
      Topics := [] }

/-- The Task `poll` builds for a fetched result (lines 136 to 149). -/
def WorkerPool.taskFor {σ : Type} (w : WorkerPool σ)
    (externalTask : FetchAndLockExternalTasksOutputResult) : Task σ :=
  NewTask w.cfg.BrokerClient
    { WorkerID := w.cfg.WorkerID
      ID := externalTask.ID
      ActivityID := externalTask.ActivityID
      ErrorDetails := externalTask.ErrorDetails
      ErrorMessage := externalTask.ErrorMessage
      ExecutionID := externalTask.ExecutionID
      Retries := externalTask.Retries
      TopicName := externalTask.TopicName
      Variables := externalTask.Variables }

/-- The loop of `poll` over the fetched results (lines 134 to 153). Indexing `taskHandlers`
with a missing key yields the zero struct, whose `handler` is the nil func: calling it
panics. -/
def WorkerPool.dispatch {σ : Type} (w : WorkerPool σ) :
    List FetchAndLockExternalTasksOutputResult → σ → Outcome × σ
  | [], s => (Outcome.returned none, s)
  | externalTask :: rest, s =>
    match w.taskHandlers.get? externalTask.TopicName with
    | none => (Outcome.panicked, s)
    | some taskHandler =>
      WorkerPool.dispatch w rest (taskHandler.handler.call (w.taskFor externalTask) s)

/-- The method `WorkerPool.poll`; `order` is the order in which the `range` over
`taskHandlers` visits the entries. -/
def WorkerPool.poll {σ : Type} (w : WorkerPool σ) (order : List (TaskHandlerEntry σ)) (s : σ) :
    Outcome × σ :=
  let r := w.cfg.BrokerClient.FetchAndLockExternalTasks (w.fetchInput order) s
  match r.1.2 with
  | some err => (Outcome.returned (some err), r.2)
  | none => w.dispatch r.1.1.Results r.2

/-- How a run of `Listen` stands: it has returned an error, it has panicked, or (all the
cycles it was given are used up) it is still looping. -/
inductive ListenOutcome where
  | returned (err : GoError)
  | panicked
  | running
  deriving DecidableEq, Repr

/-- The method `WorkerPool.Listen`, run for at most `orders.length` cycles; the k-th cycle
ranges over `taskHandlers` in the k-th order of `orders`. `sleep d` is the effect of
`time.Sleep(d)` on the gateway state. -/
def WorkerPool.Listen {σ : Type} (sleep : Int → σ → σ) (w : WorkerPool σ) :
    List (List (TaskHandlerEntry σ)) → σ → ListenOutcome × σ
  | [], s => (ListenOutcome.running, s)
  | order :: later, s =>
    match w.poll order s with
    | (Outcome.returned (some err), s1) => (ListenOutcome.returned err, s1)
    | (Outcome.panicked, s1) => (ListenOutcome.panicked, s1)
    | (Outcome.returned none, s1) =>
      WorkerPool.Listen sleep w later (sleep w.cfg.PollInterval s1)

/-! ## `pkg/client`: the HTTP implementation -/

/-- The struct `client.ClientConfig`. Its `HTTPClient` field is not read by any method
(they call `http.Post`) and is left out. -/
structure ClientConfig where
  BrokerURL : String
  deriving DecidableEq, Repr

/-- What the client reads of an `*http.Response`. -/
structure HTTPResponse where
  StatusCode : Int
  Body : String
  deriving DecidableEq, Repr

/-- The libraries the client calls: `http.Post(url, contentType, body)` as a transition of
the gateway state, the JSON encoder for each request type, and the JSON decoders.
`decodeErrorBody body` is the value of `respBody` after `Decode(&respBody)`, whose error the
client ignores. -/
structure Net (σ : Type) where
  Post : String → String → String → σ → Except GoError HTTPResponse × σ
  encodeStart : StartProcessInstanceInput → Except GoError String
  encodeFetch : FetchAndLockExternalTasksInput → Except GoError String
  encodeComplete : CompleteExternalTaskInput → Except GoError String
  encodeFail : FailExternalTaskInput → Except GoError String
  decodeErrorBody : String → ResponseErrorBody
  decodeStartOutput : String → Option GoError
  decodeResults : String → List FetchAndLockExternalTasksOutputResult × Option GoError

/-- The method `client.StartProcessInstance`. -/
def StartProcessInstance {σ : Type} (cfg : ClientConfig) (net : Net σ)
    (input : StartProcessInstanceInput) (s : σ) : Option GoError × σ :=
  match net.encodeStart input with
  | .error err => (some err, s)
  | .ok buf =>
    match net.Post
        (cfg.BrokerURL ++ "/engine-rest/process-definition/key/" ++ input.ProcessID ++ "/start")
        "application/json" buf s with
    | (.error err, s1) => (some err, s1)
    | (.ok resp, s1) =>
      if resp.StatusCode ≠ 200 then
        let respBody := net.decodeErrorBody resp.Body
        if resp.StatusCode = 400 then
          (some (GoError.Wrap ErrInvalidInput respBody.Message), s1)
        else if resp.StatusCode = 404 then
          (some (GoError.Wrap ErrProcessNotFound respBody.Message), s1)
        else
          (some (GoError.Wrap ErrUnexpected respBody.Message), s1)
      else
        (net.decodeStartOutput resp.Body, s1)

/-- The method `client.FetchAndLockExternalTasks`. -/
def FetchAndLockExternalTasks {σ : Type} (cfg : ClientConfig) (net : Net σ)
    (input : FetchAndLockExternalTasksInput) (s : σ) :
    (FetchAndLockExternalTasksOutput × Option GoError) × σ :=
  match net.encodeFetch input with
  | .error err => (({ Results := [] }, some err), s)
  | .ok buf =>
    match net.Post (cfg.BrokerURL ++ "/engine-rest/external-task/fetchAndLock")
        "application/json" buf s with
    | (.error err, s1) => (({ Results := [] }, some err), s1)
    | (.ok resp, s1) =>
      if resp.StatusCode ≠ 200 then
        let respBody := net.decodeErrorBody resp.Body
        (({ Results := [] }, some (GoError.Wrap ErrUnexpected respBody.Message)), s1)
      else
        (({ Results := (net.decodeResults resp.Body).1 }, (net.decodeResults resp.Body).2), s1)

/-- The method `client.CompleteExternalTask`. -/
def CompleteExternalTask {σ : Type} (cfg : ClientConfig) (net : Net σ)
    (input : CompleteExternalTaskInput) (s : σ) : Option GoError × σ :=
  match net.encodeComplete input with
  | .error err => (some err, s)
  | .ok buf =>
    match net.Post
        (cfg.BrokerURL ++ "/engine-rest/external-task/" ++ input.ExternalTaskID ++ "/complete")
        "application/json" buf s with
    | (.error err, s1) => (some err, s1)
    | (.ok resp, s1) =>
      if resp.StatusCode ≠ 204 then
        let respBody := net.decodeErrorBody resp.Body
        if resp.StatusCode = 400 then
          (some (GoError.Wrap ErrInvalidInput respBody.Message), s1)
        else if resp.StatusCode = 404 then
          (some (GoError.Wrap ErrProcessNotFound respBody.Message), s1)
        else
          (some (GoError.Wrap ErrUnexpected respBody.Message), s1)
      else
        (none, s1)

/-- The method `client.FailExternalTask`. -/
def FailExternalTask {σ : Type} (cfg : ClientConfig) (net : Net σ)
    (input : FailExternalTaskInput) (s : σ) : Option GoError × σ :=
  match net.encodeFail input with
  | .error err => (some err, s)
  | .ok buf =>
    match net.Post
        (cfg.BrokerURL ++ "/engine-rest/external-task/" ++ input.ExternalTaskID ++ "/failure")
        "application/json" buf s with
    | (.error err, s1) => (some err, s1)
    | (.ok resp, s1) =>
      if resp.StatusCode ≠ 204 then
        let respBody := net.decodeErrorBody resp.Body
        if resp.StatusCode = 400 then
          (some (GoError.Wrap ErrInvalidInput respBody.Message), s1)
        else if resp.StatusCode = 404 then
          (some (GoError.Wrap ErrProcessNotFound respBody.Message), s1)
        else
          (some (GoError.Wrap ErrUnexpected respBody.Message), s1)
      else
        (none, s1)

/-- The function `client.New`. -/
def New {σ : Type} (cfg : ClientConfig) (net : Net σ) : Client σ :=
  { StartProcessInstance := StartProcessInstance cfg net
    FetchAndLockExternalTasks := FetchAndLockExternalTasks cfg net
    CompleteExternalTask := CompleteExternalTask cfg net
    FailExternalTask := FailExternalTask cfg net }

/-! ## Observing gateway calls -/

/-- One call made on a `Client`, with its request. -/
inductive Call where
  | start (input : StartProcessInstanceInput)
  | fetchAndLock (input : FetchAndLockExternalTasksInput)
  | complete (input : CompleteExternalTaskInput)
  | fail (input : FailExternalTaskInput)
  deriving DecidableEq, Repr

/-- A client that behaves as `c` and appends every call it receives to a journal kept
next to the state of `c`. -/
def Client.recording {σ : Type} (c : Client σ) : Client (σ × List Call) :=
  { StartProcessInstance := fun input s =>
      ((c.StartProcessInstance input s.1).1,
        ((c.StartProcessInstance input s.1).2, s.2 ++ [Call.start input]))
    FetchAndLockExternalTasks := fun input s =>
      ((c.FetchAndLockExternalTasks input s.1).1,
        ((c.FetchAndLockExternalTasks input s.1).2, s.2 ++ [Call.fetchAndLock input]))
    CompleteExternalTask := fun input s =>
      ((c.CompleteExternalTask input s.1).1,
        ((c.CompleteExternalTask input s.1).2, s.2 ++ [Call.complete input]))
    FailExternalTask := fun input s =>
      ((c.FailExternalTask input s.1).1,
        ((c.FailExternalTask input s.1).2, s.2 ++ [Call.fail input])) }

/-- Whether a call is a complete or a fail call. -/
def Call.isReport : Call → Bool
  | .complete _ => true
  | .fail _ => true
  | _ => false

/-- Whether a call is a fetch-and-lock call. -/
def Call.isFetch : Call → Bool
  | .fetchAndLock _ => true
  | _ => false

/-! ## Notions used to state the properties -/

/-- A sequence of handler calls made one after the other. -/
def runInvocations {σ : Type} : List (TaskHandlerFunc σ × Task σ) → σ → σ
  | [], s => s
  | invocation :: rest, s => runInvocations rest (invocation.1.call invocation.2 s)

/-- The state reached from `s` by running one `Listen` cycle per element of `orders` (the
poll, then the sleep), provided every one of these polls returned nil; `none` otherwise. -/
def WorkerPool.afterCycles {σ : Type} (sleep : Int → σ → σ) (w : WorkerPool σ) :
    List (List (TaskHandlerEntry σ)) → σ → Option σ
  | [], s => some s
  | order :: later, s =>
    if (w.poll order s).1 = Outcome.returned none then
      WorkerPool.afterCycles sleep w later (sleep w.cfg.PollInterval (w.poll order s).2)
    else
      none

/-- A sequence of calls of `RegisterExternalTaskHandler` on a pool: the pool afterwards and
the error each call returned. -/
def WorkerPool.registerAll {σ : Type} (w : WorkerPool σ) :
    List (Topic × TaskHandlerFunc σ) → WorkerPool σ × List (Option GoError)
  | [] => (w, [])
  | registration :: rest =>
    let first := w.RegisterExternalTaskHandler registration.1 registration.2
    let others := WorkerPool.registerAll first.1 rest
    (others.1, first.2 :: others.2)

/-- The topics of the registrations that returned nil, in registration order. -/
def successfulTopics {σ : Type} :
    List (Topic × TaskHandlerFunc σ) → List (Option GoError) → List Topic
  | registration :: rest, none :: results => registration.1 :: successfulTopics rest results
  | _ :: rest, some _ :: results => successfulTopics rest results
  | _, _ => []

/-! ## A scripted gateway and a sample pool, for concrete runs -/

/-- The state of a scripted gateway: the responses its next fetch-and-lock calls will give,
and the results of its complete and fail calls. -/
structure Script where
  fetches : List (FetchAndLockExternalTasksOutput × Option GoError)
  completeResult : Option GoError
  failResult : Option GoError
  deriving DecidableEq, Repr

/-- A gateway that answers from its script; once the scripted fetch responses are used up
it returns no tasks. -/
def scripted : Client Script :=
  { StartProcessInstance := fun _ s => (none, s)
    FetchAndLockExternalTasks := fun _ s =>
      match s.fetches with
      | [] => (({ Results := [] }, none), s)
      | response :: rest => (response, { s with fetches := rest })
    CompleteExternalTask := fun _ s => (s.completeResult, s)
    FailExternalTask := fun _ s => (s.failResult, s) }

/-- The topic registered in `cmd/task_worker.go`. -/
def buildTopic : Topic :=
  { TopicName := "build"
    LockDuration := 5000
    ProcessDefinitionID := ""
    ProcessDefinitionKey := "" }

/-- The handler registered in `cmd/task_worker.go` (its logging left out): it completes the
task and returns. -/
def buildHandler {σ : Type} : TaskHandlerFunc σ :=
  fun task => HandlerProg.complete task.toTaskDefinition (fun _ => HandlerProg.ret)

/-- A handler that reports failure after having set an error message and a retry count on
its Task. -/
def failingHandler {σ : Type} : TaskHandlerFunc σ :=
  fun task =>
    HandlerProg.fail { task.toTaskDefinition with ErrorMessage := "boom", Retries := 3 }
      (fun _ => HandlerProg.ret)

/-- The pool configuration of `cmd/task_worker.go`, over a recording scripted gateway. -/
def sampleConfig : WorkerPoolConfig (Script × List Call) :=
  { WorkerID := "test"
    BrokerClient := scripted.recording
    MaxTasks := 1
    UsePriority := false
    PollInterval := 10000 }

/-- The pool of `cmd/task_worker.go` after its registration. -/
def samplePool : WorkerPool (Script × List Call) :=
  ((NewWorkerPool sampleConfig).RegisterExternalTaskHandler buildTopic buildHandler).1

/-- A fetched task of topic `build` carrying one input variable. -/
def buildTask : FetchAndLockExternalTasksOutputResult :=
  { ID := "t1"
    ActivityID := "a1"
    ExecutionID := "e1"
    ErrorMessage := ""
    ErrorDetails := ""
    TopicName := "build"
    Retries := 0
    Variables := [("in", { Value := AnyValue.string "x", Type_ := "String" })] }

/-- A fetched task of a topic nobody registered. -/
def strayTask : FetchAndLockExternalTasksOutputResult :=
  { buildTask with ID := "t2", TopicName := "deploy" }

/-- A script whose first fetch returns `buildTask` and whose complete calls fail. -/
def oneTaskScript : Script :=
  { fetches := [({ Results := [buildTask] }, none)]
    completeResult := some (GoError.Wrap ErrProcessNotFound "gone")
    failResult := none }

/-- A script whose first fetch returns a task of an unregistered topic. -/
def strayTaskScript : Script :=
  { fetches := [({ Results := [buildTask, strayTask] }, none)]
    completeResult := none
    failResult := none }

/-- The effect of `time.Sleep` in the concrete runs: none. -/
def noSleep {σ : Type} : Int → σ → σ :=
  fun _ s => s

/-- A script whose first fetch returns `buildTask` and whose second fetch fails. -/
def flakyScript : Script :=
  { fetches :=
      [({ Results := [buildTask] }, none),
        ({ Results := [] }, some (GoError.external "connection refused"))]
    completeResult := none
    failResult := none }

/-- A second topic. -/
def deployTopic : Topic :=
  { TopicName := "deploy"
    LockDuration := 1000
    ProcessDefinitionID := "p1"
    ProcessDefinitionKey := "" }

/-- Three registrations, the second one under the name of the first. -/
def sampleRegistrations : List (Topic × TaskHandlerFunc (Script × List Call)) :=
  [(buildTopic, buildHandler), ({ buildTopic with LockDuration := 1 }, failingHandler),
    (deployTopic, failingHandler)]

/-- A transport whose every exchange succeeds with the given status code and an error body
of message "gone". -/
def cannedNet (status : Int) : Net Unit :=
  { Post := fun _ _ _ s => (Except.ok { StatusCode := status, Body := "gone" }, s)
    encodeStart := fun _ => Except.ok ""
    encodeFetch := fun _ => Except.ok ""
    encodeComplete := fun _ => Except.ok ""
    encodeFail := fun _ => Except.ok ""
    decodeErrorBody := fun body => { Type_ := "", Message := body }
    decodeStartOutput := fun _ => none
    decodeResults := fun _ => ([], none) }

/-! ## Lemmas on Go maps -/

theorem GoMap.lookupEntries_setEntries_self {V : Type} (l : List (String × V)) (k : String)
    (v : V) : GoMap.lookupEntries (GoMap.setEntries l k v) k = some v := by
  induction l with
  | nil => simp [GoMap.setEntries, GoMap.lookupEntries]
  | cons p rest ih =>
    obtain ⟨k1, v1⟩ := p
    by_cases h : k1 = k
    · simp [GoMap.setEntries, GoMap.lookupEntries, h]
    · simp [GoMap.setEntries, GoMap.lookupEntries, h, ih]

theorem GoMap.lookupEntries_setEntries_other {V : Type} (l : List (String × V)) (k j : String)
    (v : V) (hne : k ≠ j) :
    GoMap.lookupEntries (GoMap.setEntries l k v) j = GoMap.lookupEntries l j := by
  induction l with
  | nil => simp [GoMap.setEntries, GoMap.lookupEntries, hne]
  | cons p rest ih =>
    obtain ⟨k1, v1⟩ := p
    by_cases h : k1 = k
    · subst h
      simp [GoMap.setEntries, GoMap.lookupEntries, hne]
    · by_cases h2 : k1 = j
      · subst h2
        simp [GoMap.setEntries, GoMap.lookupEntries, h]
      · simp [GoMap.setEntries, GoMap.lookupEntries, h, h2, ih]

theorem GoMap.setEntries_of_lookup_none {V : Type} (l : List (String × V)) (k : String) (v : V)
    (hnone : GoMap.lookupEntries l k = none) : GoMap.setEntries l k v = l ++ [(k, v)] := by
  induction l with
  | nil => simp [GoMap.setEntries]
  | cons p rest ih =>
    obtain ⟨k1, v1⟩ := p
    by_cases h : k1 = k
    · simp [GoMap.lookupEntries, h] at hnone
    · simp only [GoMap.lookupEntries, h, if_false] at hnone
      simp [GoMap.setEntries, h, ih hnone]

theorem GoMap.lookupEntries_none_iff {V : Type} (l : List (String × V)) (k : String) :
    GoMap.lookupEntries l k = none ↔ k ∉ l.map Prod.fst := by
  induction l with
  | nil => simp [GoMap.lookupEntries]
  | cons p rest ih =>
    obtain ⟨k1, v1⟩ := p
    by_cases h : k1 = k
    · simp [GoMap.lookupEntries, h]
    · have h2 : ¬ k = k1 := fun e => h e.symm
      simp [GoMap.lookupEntries, h, h2, ih]

/-! ## The handler registry -/

theorem register_fst_of_registered {σ : Type} (w : WorkerPool σ) (topic : Topic)
    (handler : TaskHandlerFunc σ) (e : TaskHandlerEntry σ)
    (h : w.taskHandlers.get? topic.TopicName = some e) :
    w.RegisterExternalTaskHandler topic handler =
      (w, some (GoError.New ("existing handler for topic: " ++ topic.TopicName))) := by
  simp [WorkerPool.RegisterExternalTaskHandler, h]

theorem register_of_unregistered {σ : Type} (w : WorkerPool σ) (topic : Topic)
    (handler : TaskHandlerFunc σ) (h : w.taskHandlers.get? topic.TopicName = none) :
    w.RegisterExternalTaskHandler topic handler =
      ({ w with
          taskHandlers :=
            w.taskHandlers.set topic.TopicName { topic := topic, handler := handler } },
        none) := by
  simp [WorkerPool.RegisterExternalTaskHandler, h]

/-- C1. `RegisterExternalTaskHandler topic handler` returns an error exactly when the
registry already holds an entry for `topic.TopicName`; when it returns an error the pool is
unchanged; and after a registration that succeeded, a second registration under the same
topic name fails and the lookup of that name still yields the topic and handler of the
first one. -/
theorem register_error_iff_already_registered {σ : Type} (w : WorkerPool σ) (topic : Topic)
    (handler : TaskHandlerFunc σ) (topic2 : Topic) (handler2 : TaskHandlerFunc σ) :
    ((w.RegisterExternalTaskHandler topic handler).2.isSome ↔
        (w.taskHandlers.get? topic.TopicName).isSome) ∧
      ((w.RegisterExternalTaskHandler topic handler).2.isSome →
        (w.RegisterExternalTaskHandler topic handler).1 = w) ∧
      ((w.RegisterExternalTaskHandler topic handler).2 = none →
        topic2.TopicName = topic.TopicName →
        (((w.RegisterExternalTaskHandler topic handler).1.RegisterExternalTaskHandler
            topic2 handler2).2.isSome ∧
          ((w.RegisterExternalTaskHandler topic handler).1.RegisterExternalTaskHandler
            topic2 handler2).1.taskHandlers.get? topic.TopicName =
              some { topic := topic, handler := handler })) := by
  cases hget : w.taskHandlers.get? topic.TopicName with
  | some e =>
    rw [register_fst_of_registered w topic handler e hget]
    simp
  | none =>
    rw [register_of_unregistered w topic handler hget]
    refine ⟨by simp, by simp, ?_⟩
    intro _ hname
    have hfirst :
        (w.taskHandlers.set topic.TopicName { topic := topic, handler := handler }).get?
          topic.TopicName = some { topic := topic, handler := handler } :=
      GoMap.lookupEntries_setEntries_self _ _ _
    have hlook :
        (w.taskHandlers.set topic.TopicName { topic := topic, handler := handler }).get?
          topic2.TopicName = some { topic := topic, handler := handler } := by
      rw [hname]
      exact hfirst
    rw [register_fst_of_registered _ topic2 handler2 _ hlook]
    exact ⟨by simp, hfirst⟩

/-! ## The poll cycle -/

theorem poll_of_fetch_error {σ : Type} (w : WorkerPool σ) (order : List (TaskHandlerEntry σ))
    (s : σ) (e : GoError)
    (hfetch : (w.cfg.BrokerClient.FetchAndLockExternalTasks (w.fetchInput order) s).1.2 = some e) :
    w.poll order s =
      (Outcome.returned (some e),
        (w.cfg.BrokerClient.FetchAndLockExternalTasks (w.fetchInput order) s).2) := by
  simp [WorkerPool.poll, hfetch]

theorem poll_of_fetch_ok {σ : Type} (w : WorkerPool σ) (order : List (TaskHandlerEntry σ))
    (s : σ)
    (hfetch : (w.cfg.BrokerClient.FetchAndLockExternalTasks (w.fetchInput order) s).1.2 = none) :
    w.poll order s =
      w.dispatch (w.cfg.BrokerClient.FetchAndLockExternalTasks (w.fetchInput order) s).1.1.Results
        (w.cfg.BrokerClient.FetchAndLockExternalTasks (w.fetchInput order) s).2 := by
  simp [WorkerPool.poll, hfetch]

theorem dispatch_never_returns_error {σ : Type} (w : WorkerPool σ)
    (rs : List FetchAndLockExternalTasksOutputResult) (s : σ) (e : GoError) :
    (w.dispatch rs s).1 ≠ Outcome.returned (some e) := by
  induction rs generalizing s with
  | nil => simp [WorkerPool.dispatch]
  | cons r rest ih =>
    cases hget : w.taskHandlers.get? r.TopicName with
    | none => simp [WorkerPool.dispatch, hget]
    | some entry =>
      simp only [WorkerPool.dispatch, hget]
      exact ih _

theorem dispatch_of_registered {σ : Type} (w : WorkerPool σ)
    (rs : List FetchAndLockExternalTasksOutputResult) (s : σ)
    (hreg : ∀ r ∈ rs, (w.taskHandlers.get? r.TopicName).isSome) :
    ∃ invocations : List (TaskHandlerFunc σ × Task σ),
      List.Forall₂
        (fun r invocation =>
          (∃ entry, w.taskHandlers.get? r.TopicName = some entry ∧
            invocation.1 = entry.handler) ∧ invocation.2 = w.taskFor r)
        rs invocations ∧
      w.dispatch rs s = (Outcome.returned none, runInvocations invocations s) := by
  induction rs generalizing s with
  | nil => exact ⟨[], List.Forall₂.nil, rfl⟩
  | cons r rest ih =>
    have hr := hreg r (List.mem_cons_self _ _)
    cases hget : w.taskHandlers.get? r.TopicName with
    | none => simp [hget] at hr
    | some entry =>
      obtain ⟨invs, hall, hrun⟩ :=
        ih (entry.handler.call (w.taskFor r) s) (fun r1 h1 => hreg r1 (List.mem_cons_of_mem _ h1))
      refine ⟨(entry.handler, w.taskFor r) :: invs, List.Forall₂.cons ⟨⟨entry, hget, rfl⟩, rfl⟩ hall, ?_⟩
      simp only [WorkerPool.dispatch, hget, runInvocations]
      exact hrun

theorem dispatch_of_unregistered {σ : Type} (w : WorkerPool σ)
    (rs : List FetchAndLockExternalTasksOutputResult) (s : σ)
    (r : FetchAndLockExternalTasksOutputResult) (hr : r ∈ rs)
    (hunreg : w.taskHandlers.get? r.TopicName = none) :
    (w.dispatch rs s).1 = Outcome.panicked := by
  induction rs generalizing s with
  | nil => simp at hr
  | cons r1 rest ih =>
    cases hget : w.taskHandlers.get? r1.TopicName with
    | none => simp [WorkerPool.dispatch, hget]
    | some entry =>
      simp only [WorkerPool.dispatch, hget]
      rcases List.mem_cons.mp hr with h | h
      · subst h
        rw [hunreg] at hget
        cases hget
      · exact ih _ h

/-- C2. When the fetch-and-lock of a poll cycle succeeds with results that are all of
registered topics, the poll returns nil and its effect is that of one handler call per
result, made one after the other in the order of the result list: the i-th call is of the
handler registered under the i-th result's TopicName, on a Task bound to the pool's client
whose ID, ActivityID, ExecutionID, TopicName, Retries, ErrorMessage, ErrorDetails and
Variables are those of the i-th result and whose WorkerID is the configured worker ID. -/
theorem poll_invokes_registered_handlers_in_order {σ : Type} (w : WorkerPool σ)
    (order : List (TaskHandlerEntry σ)) (s : σ)
    (hfetch : (w.cfg.BrokerClient.FetchAndLockExternalTasks (w.fetchInput order) s).1.2 = none)
    (hreg : ∀ r ∈
        (w.cfg.BrokerClient.FetchAndLockExternalTasks (w.fetchInput order) s).1.1.Results,
      (w.taskHandlers.get? r.TopicName).isSome) :
    ∃ invocations : List (TaskHandlerFunc σ × Task σ),
      invocations.length =
        (w.cfg.BrokerClient.FetchAndLockExternalTasks
          (w.fetchInput order) s).1.1.Results.length ∧
      List.Forall₂
        (fun r invocation =>
          (∃ entry, w.taskHandlers.get? r.TopicName = some entry ∧
            invocation.1 = entry.handler) ∧
          invocation.2.client = w.cfg.BrokerClient ∧
          invocation.2.ID = r.ID ∧
          invocation.2.ActivityID = r.ActivityID ∧
          invocation.2.ExecutionID = r.ExecutionID ∧
          invocation.2.TopicName = r.TopicName ∧
          invocation.2.Retries = r.Retries ∧
          invocation.2.ErrorMessage = r.ErrorMessage ∧
          invocation.2.ErrorDetails = r.ErrorDetails ∧
          invocation.2.Variables = r.Variables ∧
          invocation.2.WorkerID = w.cfg.WorkerID)
        (w.cfg.BrokerClient.FetchAndLockExternalTasks (w.fetchInput order) s).1.1.Results
        invocations ∧
      w.poll order s =
        (Outcome.returned none,
          runInvocations invocations
            (w.cfg.BrokerClient.FetchAndLockExternalTasks (w.fetchInput order) s).2) := by
  obtain ⟨invs, hall, hrun⟩ := dispatch_of_registered w _
    (w.cfg.BrokerClient.FetchAndLockExternalTasks (w.fetchInput order) s).2 hreg
  refine ⟨invs, hall.length_eq.symm, ?_, ?_⟩
  · refine hall.imp ?_
    rintro r inv ⟨hentry, htask⟩
    refine ⟨hentry, ?_⟩
    rw [htask]
    simp [WorkerPool.taskFor, NewTask]
  · rw [poll_of_fetch_ok w order s hfetch]
    exact hrun

/-- C4. When the fetch-and-lock of a poll cycle succeeds and one of the returned tasks has a
TopicName without an entry in the registry, the poll does not return: it panics (the call of
the nil handler of the missing entry). -/
theorem poll_panics_on_unregistered_topic {σ : Type} (w : WorkerPool σ)
    (order : List (TaskHandlerEntry σ)) (s : σ)
    (hfetch : (w.cfg.BrokerClient.FetchAndLockExternalTasks (w.fetchInput order) s).1.2 = none)
    (r : FetchAndLockExternalTasksOutputResult)
    (hr : r ∈ (w.cfg.BrokerClient.FetchAndLockExternalTasks (w.fetchInput order) s).1.1.Results)
    (hunreg : w.taskHandlers.get? r.TopicName = none) :
    (w.poll order s).1 = Outcome.panicked ∧ (w.poll order s).1 ≠ Outcome.returned none := by
  have h : (w.poll order s).1 = Outcome.panicked := by
    rw [poll_of_fetch_ok w order s hfetch]
    exact dispatch_of_unregistered w _ _ r hr hunreg
  rw [h]
  exact ⟨rfl, by simp⟩

/-! ## The listen loop -/

theorem listen_cons_of_nil {σ : Type} (sleep : Int → σ → σ) (w : WorkerPool σ)
    (order : List (TaskHandlerEntry σ)) (later : List (List (TaskHandlerEntry σ))) (s : σ)
    (h : (w.poll order s).1 = Outcome.returned none) :
    w.Listen sleep (order :: later) s =
      w.Listen sleep later (sleep w.cfg.PollInterval (w.poll order s).2) := by
  rcases hp : w.poll order s with ⟨o, s1⟩
  rw [hp] at h
  simp only at h
  subst h
  simp [WorkerPool.Listen, hp]

theorem listen_cons_of_error {σ : Type} (sleep : Int → σ → σ) (w : WorkerPool σ)
    (order : List (TaskHandlerEntry σ)) (later : List (List (TaskHandlerEntry σ))) (s : σ)
    (e : GoError) (h : (w.poll order s).1 = Outcome.returned (some e)) :
    w.Listen sleep (order :: later) s = (ListenOutcome.returned e, (w.poll order s).2) := by
  rcases hp : w.poll order s with ⟨o, s1⟩
  rw [hp] at h
  simp only at h
  subst h
  simp [WorkerPool.Listen, hp]

theorem listen_cons_of_panic {σ : Type} (sleep : Int → σ → σ) (w : WorkerPool σ)
    (order : List (TaskHandlerEntry σ)) (later : List (List (TaskHandlerEntry σ))) (s : σ)
    (h : (w.poll order s).1 = Outcome.panicked) :
    w.Listen sleep (order :: later) s = (ListenOutcome.panicked, (w.poll order s).2) := by
  rcases hp : w.poll order s with ⟨o, s1⟩
  rw [hp] at h
  simp only at h
  subst h
  simp [WorkerPool.Listen, hp]

theorem poll_error_from_fetch {σ : Type} (w : WorkerPool σ) (order : List (TaskHandlerEntry σ))
    (s : σ) (e : GoError) (h : (w.poll order s).1 = Outcome.returned (some e)) :
    (w.cfg.BrokerClient.FetchAndLockExternalTasks (w.fetchInput order) s).1.2 = some e ∧
      (w.poll order s).2 =
        (w.cfg.BrokerClient.FetchAndLockExternalTasks (w.fetchInput order) s).2 := by
  cases hf : (w.cfg.BrokerClient.FetchAndLockExternalTasks (w.fetchInput order) s).1.2 with
  | none =>
    rw [poll_of_fetch_ok w order s hf] at h
    exact absurd h (dispatch_never_returns_error w _ _ e)
  | some e1 =>
    rw [poll_of_fetch_error w order s e1 hf] at h ⊢
    simp only [Outcome.returned.injEq, Option.some.injEq] at h
    subst h
    exact ⟨rfl, rfl⟩

theorem listen_after_cycles {σ : Type} (sleep : Int → σ → σ) (w : WorkerPool σ)
    (earlier rest : List (List (TaskHandlerEntry σ))) (s0 s : σ)
    (h : w.afterCycles sleep earlier s0 = some s) :
    w.Listen sleep (earlier ++ rest) s0 = w.Listen sleep rest s := by
  induction earlier generalizing s0 with
  | nil =>
    simp only [WorkerPool.afterCycles, Option.some.injEq] at h
    subst h
    rfl
  | cons order later ih =>
    by_cases hp : (w.poll order s0).1 = Outcome.returned none
    · simp only [WorkerPool.afterCycles, hp, if_true] at h
      rw [List.cons_append, listen_cons_of_nil sleep w order _ s0 hp]
      exact ih _ h
    · simp [WorkerPool.afterCycles, hp] at h

theorem listen_error_from_fetch {σ : Type} (sleep : Int → σ → σ) (w : WorkerPool σ)
    (orders : List (List (TaskHandlerEntry σ))) (s0 s1 : σ) (e : GoError)
    (h : w.Listen sleep orders s0 = (ListenOutcome.returned e, s1)) :
    ∃ order ∈ orders, ∃ s : σ,
      (w.cfg.BrokerClient.FetchAndLockExternalTasks (w.fetchInput order) s).1.2 = some e ∧
        s1 = (w.cfg.BrokerClient.FetchAndLockExternalTasks (w.fetchInput order) s).2 := by
  induction orders generalizing s0 with
  | nil => simp [WorkerPool.Listen] at h
  | cons order later ih =>
    rcases hp : (w.poll order s0).1 with (_ | e1) | _
    · rw [listen_cons_of_nil sleep w order later s0 hp] at h
      obtain ⟨o, ho, s, hs⟩ := ih _ h
      exact ⟨o, List.mem_cons_of_mem _ ho, s, hs⟩
    · rw [listen_cons_of_error sleep w order later s0 e1 hp] at h
      simp only [Prod.mk.injEq, ListenOutcome.returned.injEq] at h
      obtain ⟨he, hs⟩ := h
      subst he
      obtain ⟨hf, hst⟩ := poll_error_from_fetch w order s0 e1 hp
      exact ⟨order, List.mem_cons_self _ _, s0, hf, by rw [← hs, hst]⟩
    · rw [listen_cons_of_panic sleep w order later s0 hp] at h
      simp at h

/-- C3. With a gateway that records its calls: when the fetch-and-lock of a cycle returns
an error `e`, `poll` returns exactly `e` and the only thing it did is that one fetch call
(no handler ran, no complete or fail call was made); `Listen`, having run the earlier
cycles with polls that returned nil, returns `e` from that cycle in the state this poll left,
however many further cycles it would be allowed; and when the first fetch fails, `Listen`
returns `e` with a journal holding that single fetch call: one fetch call, no complete or
fail call. -/
theorem fetch_error_aborts_listen {σ : Type} (c : Client σ) (w : WorkerPool (σ × List Call))
    (hrec : w.cfg.BrokerClient = c.recording)
    (sleep : Int → σ × List Call → σ × List Call)
    (earlier later : List (List (TaskHandlerEntry (σ × List Call))))
    (order : List (TaskHandlerEntry (σ × List Call))) (s0 s : σ × List Call) (e : GoError)
    (hearlier : w.afterCycles sleep earlier s0 = some s)
    (hfail : (c.FetchAndLockExternalTasks (w.fetchInput order) s.1).1.2 = some e) :
    w.poll order s =
        (Outcome.returned (some e),
          ((c.FetchAndLockExternalTasks (w.fetchInput order) s.1).2,
            s.2 ++ [Call.fetchAndLock (w.fetchInput order)])) ∧
      w.Listen sleep (earlier ++ order :: later) s0 =
        (ListenOutcome.returned e,
          ((c.FetchAndLockExternalTasks (w.fetchInput order) s.1).2,
            s.2 ++ [Call.fetchAndLock (w.fetchInput order)])) ∧
      w.Listen sleep (order :: later) (s.1, []) =
        (ListenOutcome.returned e,
          ((c.FetchAndLockExternalTasks (w.fetchInput order) s.1).2,
            [Call.fetchAndLock (w.fetchInput order)])) ∧
      ((w.Listen sleep (order :: later) (s.1, [])).2.2.filter Call.isFetch).length = 1 ∧
      (w.Listen sleep (order :: later) (s.1, [])).2.2.filter Call.isReport = [] := by
  have hpoll : ∀ j : List Call,
      w.poll order (s.1, j) =
        (Outcome.returned (some e),
          ((c.FetchAndLockExternalTasks (w.fetchInput order) s.1).2,
            j ++ [Call.fetchAndLock (w.fetchInput order)])) := by
    intro j
    have hf : (w.cfg.BrokerClient.FetchAndLockExternalTasks (w.fetchInput order) (s.1, j)).1.2 =
        some e := by
      rw [hrec]
      exact hfail
    rw [poll_of_fetch_error w order (s.1, j) e hf, hrec]
    rfl
  have hs : w.poll order s = _ := hpoll s.2
  have hfirst : w.Listen sleep (order :: later) (s.1, []) =
      (ListenOutcome.returned e,
        ((c.FetchAndLockExternalTasks (w.fetchInput order) s.1).2,
          [Call.fetchAndLock (w.fetchInput order)])) := by
    rw [listen_cons_of_error sleep w order later (s.1, []) e (by rw [hpoll []]), hpoll []]
    rfl
  refine ⟨hs, ?_, hfirst, ?_, ?_⟩
  · rw [listen_after_cycles sleep w earlier (order :: later) s0 s hearlier,
      listen_cons_of_error sleep w order later s e (by rw [hs]), hs]
  · rw [hfirst]
    rfl
  · rw [hfirst]
    rfl

/-- C10. When the fetch-and-lock of a poll cycle succeeds and every returned task is of a
registered topic, `poll` returns nil, whatever the handlers do with their Tasks and whatever
the gateway answers to their complete and fail calls; and an error returned by `Listen` is
the error returned by a fetch-and-lock call, `Listen` ending in the state that call left. -/
theorem listen_fails_only_on_fetch_error {σ : Type} (sleep : Int → σ → σ) (w : WorkerPool σ)
    (order : List (TaskHandlerEntry σ)) (orders : List (List (TaskHandlerEntry σ))) (s : σ) :
    ((w.cfg.BrokerClient.FetchAndLockExternalTasks (w.fetchInput order) s).1.2 = none →
        (∀ r ∈
          (w.cfg.BrokerClient.FetchAndLockExternalTasks (w.fetchInput order) s).1.1.Results,
          (w.taskHandlers.get? r.TopicName).isSome) →
        (w.poll order s).1 = Outcome.returned none) ∧
      (∀ (e : GoError) (s1 : σ),
        w.Listen sleep orders s = (ListenOutcome.returned e, s1) →
        ∃ o ∈ orders, ∃ s2 : σ,
          (w.cfg.BrokerClient.FetchAndLockExternalTasks (w.fetchInput o) s2).1.2 = some e ∧
            s1 = (w.cfg.BrokerClient.FetchAndLockExternalTasks (w.fetchInput o) s2).2) := by
  refine ⟨?_, ?_⟩
  · intro hfetch hreg
    obtain ⟨invs, _, hrun⟩ := dispatch_of_registered w _
      (w.cfg.BrokerClient.FetchAndLockExternalTasks (w.fetchInput order) s).2 hreg
    rw [poll_of_fetch_ok w order s hfetch, hrun]
  · intro e s1 h
    exact listen_error_from_fetch sleep w orders s s1 e h

/-! ## The task handle -/

theorem recording_complete {σ : Type} (c : Client σ) (input : CompleteExternalTaskInput)
    (g : σ) (j : List Call) :
    c.recording.CompleteExternalTask input (g, j) =
      ((c.CompleteExternalTask input g).1,
        ((c.CompleteExternalTask input g).2, j ++ [Call.complete input])) :=
  rfl

theorem recording_fail {σ : Type} (c : Client σ) (input : FailExternalTaskInput)
    (g : σ) (j : List Call) :
    c.recording.FailExternalTask input (g, j) =
      ((c.FailExternalTask input g).1,
        ((c.FailExternalTask input g).2, j ++ [Call.fail input])) :=
  rfl

theorem run_recording_journal {σ : Type} (c : Client σ) (p : HandlerProg) (g : σ)
    (j : List Call) :
    ∃ more : List Call, (HandlerProg.run c.recording p (g, j)).2 = j ++ more := by
  induction p generalizing g j with
  | ret => exact ⟨[], by simp [HandlerProg.run]⟩
  | complete definition k ih =>
    simp only [HandlerProg.run, Task.Complete, NewTask, recording_complete]
    obtain ⟨more, hmore⟩ := ih _ _ (j ++ [Call.complete _])
    exact ⟨_, by rw [hmore, List.append_assoc]⟩
  | fail definition k ih =>
    simp only [HandlerProg.run, Task.Fail, NewTask, recording_fail]
    obtain ⟨more, hmore⟩ := ih _ _ (j ++ [Call.fail _])
    exact ⟨_, by rw [hmore, List.append_assoc]⟩

/-- C8. On a Task bound to a gateway that records its calls, a call of `Complete` makes
exactly one `CompleteExternalTask` call and returns that call's result, and a second call
of `Complete` on the same Task makes one more gateway call and returns what the gateway
answers to that one; the same holds of `Fail` and `FailExternalTask`. -/
theorem task_report_is_one_gateway_call {σ : Type} (c : Client σ) (t : Task (σ × List Call))
    (ht : t.client = c.recording) (g : σ) (j : List Call) :
    (Task.Complete t (g, j) =
        ((c.CompleteExternalTask
            { ExternalTaskID := t.ID, Variables := t.Variables, WorkerID := t.WorkerID } g).1,
          ((c.CompleteExternalTask
              { ExternalTaskID := t.ID, Variables := t.Variables, WorkerID := t.WorkerID } g).2,
            j ++ [Call.complete
              { ExternalTaskID := t.ID, Variables := t.Variables, WorkerID := t.WorkerID }]))) ∧
      (Task.Complete t (Task.Complete t (g, j)).2 =
        ((c.CompleteExternalTask
            { ExternalTaskID := t.ID, Variables := t.Variables, WorkerID := t.WorkerID }
            (c.CompleteExternalTask
              { ExternalTaskID := t.ID, Variables := t.Variables, WorkerID := t.WorkerID }
              g).2).1,
          ((c.CompleteExternalTask
              { ExternalTaskID := t.ID, Variables := t.Variables, WorkerID := t.WorkerID }
              (c.CompleteExternalTask
                { ExternalTaskID := t.ID, Variables := t.Variables, WorkerID := t.WorkerID }
                g).2).2,
            j ++ [Call.complete
                { ExternalTaskID := t.ID, Variables := t.Variables, WorkerID := t.WorkerID },
              Call.complete
                { ExternalTaskID := t.ID, Variables := t.Variables,
                  WorkerID := t.WorkerID }]))) ∧
      (Task.Fail t (g, j) =
        ((c.FailExternalTask
            { ExternalTaskID := t.ID, WorkerID := t.WorkerID, ErrorMessage := "",
              ErrorDetails := "", Retries := 0, RetryTimeout := 0 } g).1,
          ((c.FailExternalTask
              { ExternalTaskID := t.ID, WorkerID := t.WorkerID, ErrorMessage := "",
                ErrorDetails := "", Retries := 0, RetryTimeout := 0 } g).2,
            j ++ [Call.fail
              { ExternalTaskID := t.ID, WorkerID := t.WorkerID, ErrorMessage := "",
                ErrorDetails := "", Retries := 0, RetryTimeout := 0 }]))) ∧
      (Task.Fail t (Task.Fail t (g, j)).2 =
        ((c.FailExternalTask
            { ExternalTaskID := t.ID, WorkerID := t.WorkerID, ErrorMessage := "",
              ErrorDetails := "", Retries := 0, RetryTimeout := 0 }
            (c.FailExternalTask
              { ExternalTaskID := t.ID, WorkerID := t.WorkerID, ErrorMessage := "",
                ErrorDetails := "", Retries := 0, RetryTimeout := 0 } g).2).1,
          ((c.FailExternalTask
              { ExternalTaskID := t.ID, WorkerID := t.WorkerID, ErrorMessage := "",
                ErrorDetails := "", Retries := 0, RetryTimeout := 0 }
              (c.FailExternalTask
                { ExternalTaskID := t.ID, WorkerID := t.WorkerID, ErrorMessage := "",
                  ErrorDetails := "", Retries := 0, RetryTimeout := 0 } g).2).2,
            j ++ [Call.fail
                { ExternalTaskID := t.ID, WorkerID := t.WorkerID, ErrorMessage := "",
                  ErrorDetails := "", Retries := 0, RetryTimeout := 0 },
              Call.fail
                { ExternalTaskID := t.ID, WorkerID := t.WorkerID, ErrorMessage := "",
                  ErrorDetails := "", Retries := 0, RetryTimeout := 0 }]))) := by
  refine ⟨?_, ?_, ?_, ?_⟩
  · simp only [Task.Complete, ht, recording_complete]
  · simp only [Task.Complete, ht, recording_complete, List.append_assoc, List.singleton_append]
  · simp only [Task.Fail, ht, recording_fail]
  · simp only [Task.Fail, ht, recording_fail, List.append_assoc, List.singleton_append]

/-- C5. `Complete` sends the Variables field of its Task, an exported field of the Task the
handler receives, which is how the caller of `Complete` supplies its output variable map.
For every Task `poll` hands to a handler and every variable map `vars` (possibly empty)
the handler stores in that field, the completion request passed to the gateway carries
exactly ExternalTaskID = the task's ID, WorkerID = the pool's configured worker ID and
Variables = `vars`, whether `Complete` is called directly or as a step of a handler body;
a handler that supplies nothing sends the map fetched with the task. -/
theorem complete_request_carries_task_fields {σ : Type} (c : Client σ)
    (w : WorkerPool (σ × List Call)) (hrec : w.cfg.BrokerClient = c.recording)
    (r : FetchAndLockExternalTasksOutputResult) (vars : VariableMap)
    (k : Option GoError → HandlerProg) (g : σ) (j : List Call) :
    (Task.Complete { w.taskFor r with Variables := vars } (g, j)).2.2 =
        j ++ [Call.complete
          { ExternalTaskID := r.ID, WorkerID := w.cfg.WorkerID, Variables := vars }] ∧
      (∃ more : List Call,
        (HandlerProg.run (w.taskFor r).client
            (HandlerProg.complete { (w.taskFor r).toTaskDefinition with Variables := vars } k)
            (g, j)).2 =
          j ++ Call.complete
            { ExternalTaskID := r.ID, WorkerID := w.cfg.WorkerID, Variables := vars } ::
              more) ∧
      (Task.Complete (w.taskFor r) (g, j)).2.2 =
        j ++ [Call.complete
          { ExternalTaskID := r.ID, WorkerID := w.cfg.WorkerID, Variables := r.Variables }] := by
  refine ⟨?_, ?_, ?_⟩
  · simp only [Task.Complete, WorkerPool.taskFor, NewTask, hrec, recording_complete]
  · have hclient : (w.taskFor r).client = c.recording := by
      simp [WorkerPool.taskFor, NewTask, hrec]
    rw [hclient]
    simp only [HandlerProg.run, Task.Complete, NewTask, recording_complete, WorkerPool.taskFor]
    obtain ⟨more, hmore⟩ := run_recording_journal c
      (k (c.CompleteExternalTask
        { ExternalTaskID := r.ID, WorkerID := w.cfg.WorkerID, Variables := vars } g).1)
      (c.CompleteExternalTask
        { ExternalTaskID := r.ID, WorkerID := w.cfg.WorkerID, Variables := vars } g).2
      (j ++ [Call.complete
        { ExternalTaskID := r.ID, WorkerID := w.cfg.WorkerID, Variables := vars }])
    exact ⟨more, by rw [hmore, List.append_assoc]; rfl⟩
  · simp only [Task.Complete, WorkerPool.taskFor, NewTask, hrec, recording_complete]

/-- C6, as the code has it. `Fail` takes no arguments: for the Task `poll` hands to a
handler, also after the handler has stored an error message, error details and a retry
count in the fields of its Task, the failure request carries the task's ID and the
configured worker ID, an empty ErrorMessage and ErrorDetails, and Retries and RetryTimeout
zero. -/
theorem fail_request_carries_only_ids {σ : Type} (c : Client σ)
    (w : WorkerPool (σ × List Call)) (hrec : w.cfg.BrokerClient = c.recording)
    (r : FetchAndLockExternalTasksOutputResult) (errorMessage errorDetails : String)
    (retries : Int) (g : σ) (j : List Call) :
    (Task.Fail (w.taskFor r) (g, j)).2.2 =
        j ++ [Call.fail
          { ExternalTaskID := r.ID, WorkerID := w.cfg.WorkerID, ErrorMessage := "",
            ErrorDetails := "", Retries := 0, RetryTimeout := 0 }] ∧
      (Task.Fail
          { w.taskFor r with
            ErrorMessage := errorMessage, ErrorDetails := errorDetails, Retries := retries }
          (g, j)).2.2 =
        j ++ [Call.fail
          { ExternalTaskID := r.ID, WorkerID := w.cfg.WorkerID, ErrorMessage := "",
            ErrorDetails := "", Retries := 0, RetryTimeout := 0 }] := by
  refine ⟨?_, ?_⟩
  · simp only [Task.Fail, WorkerPool.taskFor, NewTask, hrec, recording_fail]
  · simp only [Task.Fail, WorkerPool.taskFor, NewTask, hrec, recording_fail]

/-- C6 as stated fails: a handler that sets the error message "boom" and 3 retries on its
Task and calls `Fail` sends a request with an empty error message and zero retries, so the
request does not carry the values the caller supplies. -/
theorem fail_request_values_counterexample :
    (HandlerProg.run samplePool.cfg.BrokerClient
          (failingHandler (samplePool.taskFor buildTask)) (oneTaskScript, [])).2 =
        [Call.fail
          { ExternalTaskID := "t1", WorkerID := "test", ErrorMessage := "",
            ErrorDetails := "", Retries := 0, RetryTimeout := 0 }] ∧
      ¬ ∀ (errorMessage errorDetails : String) (retries retryTimeout : Int),
        (Task.Fail (samplePool.taskFor buildTask) (oneTaskScript, [])).2.2 =
          [Call.fail
            { ExternalTaskID := "t1", WorkerID := "test", ErrorMessage := errorMessage,
              ErrorDetails := errorDetails, Retries := retries,
              RetryTimeout := retryTimeout }] := by
  refine ⟨by decide, ?_⟩
  intro h
  exact absurd (h "boom" "" 3 0) (by decide)

/-! ## The gateway's error mapping -/

theorem completeExternalTask_of_response {σ : Type} (cfg : ClientConfig) (net : Net σ)
    (input : CompleteExternalTaskInput) (s s1 : σ) (buf : String) (resp : HTTPResponse)
    (hencode : net.encodeComplete input = Except.ok buf)
    (hpost : net.Post
        (cfg.BrokerURL ++ "/engine-rest/external-task/" ++ input.ExternalTaskID ++ "/complete")
        "application/json" buf s = (Except.ok resp, s1)) :
    (CompleteExternalTask cfg net input s).1 =
      if resp.StatusCode = 204 then none
      else if resp.StatusCode = 400 then
        some (GoError.Wrap ErrInvalidInput (net.decodeErrorBody resp.Body).Message)
      else if resp.StatusCode = 404 then
        some (GoError.Wrap ErrProcessNotFound (net.decodeErrorBody resp.Body).Message)
      else some (GoError.Wrap ErrUnexpected (net.decodeErrorBody resp.Body).Message) := by
  simp only [CompleteExternalTask, hencode, hpost]
  by_cases h1 : resp.StatusCode = 204
  · simp [h1]
  · by_cases h2 : resp.StatusCode = 400
    · simp [h2]
    · by_cases h3 : resp.StatusCode = 404
      · simp [h3]
      · simp [h1, h2, h3]

theorem failExternalTask_of_response {σ : Type} (cfg : ClientConfig) (net : Net σ)
    (input : FailExternalTaskInput) (s s1 : σ) (buf : String) (resp : HTTPResponse)
    (hencode : net.encodeFail input = Except.ok buf)
    (hpost : net.Post
        (cfg.BrokerURL ++ "/engine-rest/external-task/" ++ input.ExternalTaskID ++ "/failure")
        "application/json" buf s = (Except.ok resp, s1)) :
    (FailExternalTask cfg net input s).1 =
      if resp.StatusCode = 204 then none
      else if resp.StatusCode = 400 then
        some (GoError.Wrap ErrInvalidInput (net.decodeErrorBody resp.Body).Message)
      else if resp.StatusCode = 404 then
        some (GoError.Wrap ErrProcessNotFound (net.decodeErrorBody resp.Body).Message)
      else some (GoError.Wrap ErrUnexpected (net.decodeErrorBody resp.Body).Message) := by
  simp only [FailExternalTask, hencode, hpost]
  by_cases h1 : resp.StatusCode = 204
  · simp [h1]
  · by_cases h2 : resp.StatusCode = 400
    · simp [h2]
    · by_cases h3 : resp.StatusCode = 404
      · simp [h3]
      · simp [h1, h2, h3]

/-- C7. After a successful transport exchange, the result of `CompleteExternalTask` is a
function of the response's status code and of the message `m` of its error body: nil for
204, `ErrInvalidInput` wrapped with `m` for 400, `ErrProcessNotFound` wrapped with `m` for
404, `ErrUnexpected` wrapped with `m` for every other status, the cause of each of these
errors being the wrapped package error and `m` being kept verbatim; and `FailExternalTask`,
given a response with the same status code and message, returns the same result. -/
theorem report_error_mapping {σ : Type} (cfg : ClientConfig) (net : Net σ)
    (ci : CompleteExternalTaskInput) (fi : FailExternalTaskInput) (sc sc1 sf sf1 : σ)
    (bufc buff : String) (respc respf : HTTPResponse) (status : Int) (m : String)
    (hci : net.encodeComplete ci = Except.ok bufc)
    (hpc : net.Post
        (cfg.BrokerURL ++ "/engine-rest/external-task/" ++ ci.ExternalTaskID ++ "/complete")
        "application/json" bufc sc = (Except.ok respc, sc1))
    (hfi : net.encodeFail fi = Except.ok buff)
    (hpf : net.Post
        (cfg.BrokerURL ++ "/engine-rest/external-task/" ++ fi.ExternalTaskID ++ "/failure")
        "application/json" buff sf = (Except.ok respf, sf1))
    (hsc : respc.StatusCode = status) (hmc : (net.decodeErrorBody respc.Body).Message = m)
    (hsf : respf.StatusCode = status) (hmf : (net.decodeErrorBody respf.Body).Message = m) :
    (status = 204 → ((New cfg net).CompleteExternalTask ci sc).1 = none) ∧
      (status = 400 →
        ((New cfg net).CompleteExternalTask ci sc).1 = some (GoError.Wrap ErrInvalidInput m)) ∧
      (status = 404 →
        ((New cfg net).CompleteExternalTask ci sc).1 =
          some (GoError.Wrap ErrProcessNotFound m)) ∧
      (status ≠ 204 → status ≠ 400 → status ≠ 404 →
        ((New cfg net).CompleteExternalTask ci sc).1 = some (GoError.Wrap ErrUnexpected m)) ∧
      (GoError.Wrap ErrInvalidInput m).Cause = ErrInvalidInput ∧
      (GoError.Wrap ErrProcessNotFound m).Cause = ErrProcessNotFound ∧
      (GoError.Wrap ErrUnexpected m).Cause = ErrUnexpected ∧
      (GoError.Wrap ErrUnexpected m).Error = m ++ ": unexpected error" ∧
      ((New cfg net).FailExternalTask fi sf).1 = ((New cfg net).CompleteExternalTask ci sc).1 := by
  have hc := completeExternalTask_of_response cfg net ci sc sc1 bufc respc hci hpc
  have hf := failExternalTask_of_response cfg net fi sf sf1 buff respf hfi hpf
  rw [hsc, hmc] at hc
  rw [hsf, hmf] at hf
  refine ⟨?_, ?_, ?_, ?_, rfl, rfl, rfl, ?_, ?_⟩
  · intro h
    simp only [New, hc, h, if_true]
  · intro h
    rw [show ((New cfg net).CompleteExternalTask ci sc).1 = _ from hc, h]
    simp
  · intro h
    rw [show ((New cfg net).CompleteExternalTask ci sc).1 = _ from hc, h]
    simp
  · intro h1 h2 h3
    rw [show ((New cfg net).CompleteExternalTask ci sc).1 = _ from hc]
    simp [h1, h2, h3]
  · have htext : ": " ++ "unexpected error" = ": unexpected error" := by decide
    simp only [GoError.Error, ErrUnexpected, String.append_assoc, htext]
  · rw [show ((New cfg net).CompleteExternalTask ci sc).1 = _ from hc,
      show ((New cfg net).FailExternalTask fi sf).1 = _ from hf]

/-! ## The fetch request -/

theorem fetchInput_foldl {σ : Type} (order : List (TaskHandlerEntry σ))
    (init : FetchAndLockExternalTasksInput) :
    order.foldl
        (fun input taskHandler => { input with Topics := input.Topics ++ [taskHandler.topic] })
        init =
      { init with Topics := init.Topics ++ order.map (fun taskHandler => taskHandler.topic) } := by
  induction order generalizing init with
  | nil => simp
  | cons entry rest ih => simp [List.foldl, ih]

theorem fetchInput_eq {σ : Type} (w : WorkerPool σ) (order : List (TaskHandlerEntry σ)) :
    w.fetchInput order =
      { WorkerID := w.cfg.WorkerID
        MaxTasks := w.cfg.MaxTasks
        UsePriority := w.cfg.UsePriority
        AsyncResponseTimeout := 0
        Topics := order.map (fun taskHandler => taskHandler.topic) } := by
  simp [WorkerPool.fetchInput, fetchInput_foldl]

theorem registerAll_spec {σ : Type} (regs : List (Topic × TaskHandlerFunc σ))
    (w : WorkerPool σ)
    (hkeys : (w.taskHandlers.entries.map Prod.fst).Nodup)
    (hnames : ∀ p ∈ w.taskHandlers.entries, p.2.topic.TopicName = p.1) :
    (w.registerAll regs).1.cfg = w.cfg ∧
      ((w.registerAll regs).1.taskHandlers.entries.map Prod.fst).Nodup ∧
      (∀ p ∈ (w.registerAll regs).1.taskHandlers.entries, p.2.topic.TopicName = p.1) ∧
      (w.registerAll regs).1.taskHandlers.values.map (fun taskHandler => taskHandler.topic) =
        w.taskHandlers.values.map (fun taskHandler => taskHandler.topic) ++
          successfulTopics regs (w.registerAll regs).2 := by
  induction regs generalizing w with
  | nil => exact ⟨rfl, hkeys, hnames, by simp [WorkerPool.registerAll, successfulTopics]⟩
  | cons reg rest ih =>
    cases hget : w.taskHandlers.get? reg.1.TopicName with
    | some entry =>
      have hreg := register_fst_of_registered w reg.1 reg.2 entry hget
      obtain ⟨h1, h2, h3, h4⟩ := ih w hkeys hnames
      simp only [WorkerPool.registerAll, hreg, successfulTopics]
      exact ⟨h1, h2, h3, h4⟩
    | none =>
      have hreg := register_of_unregistered w reg.1 reg.2 hget
      have hset : (w.taskHandlers.set reg.1.TopicName { topic := reg.1, handler := reg.2 }).entries =
          w.taskHandlers.entries ++ [(reg.1.TopicName, { topic := reg.1, handler := reg.2 })] :=
        GoMap.setEntries_of_lookup_none _ _ _ hget
      have hfresh : reg.1.TopicName ∉ w.taskHandlers.entries.map Prod.fst :=
        (GoMap.lookupEntries_none_iff _ _).mp hget
      obtain ⟨h1, h2, h3, h4⟩ := ih
        { w with
          taskHandlers :=
            w.taskHandlers.set reg.1.TopicName { topic := reg.1, handler := reg.2 } }
        (by
          rw [hset, List.map_append, List.nodup_append]
          refine ⟨hkeys, by simp, ?_⟩
          intro a ha hb
          simp only [List.map_cons, List.map_nil, List.mem_singleton] at hb
          subst hb
          exact hfresh ha)
        (by
          intro p hp
          rw [hset, List.mem_append] at hp
          rcases hp with hp | hp
          · exact hnames p hp
          · simp only [List.mem_singleton] at hp
            subst hp
            rfl)
      simp only [WorkerPool.registerAll, hreg, successfulTopics]
      refine ⟨h1, h2, h3, ?_⟩
      rw [h4]
      simp [GoMap.values, hset]

theorem dispatch_recording_journal {σ : Type} (c : Client σ) (w : WorkerPool (σ × List Call))
    (hrec : w.cfg.BrokerClient = c.recording)
    (rs : List FetchAndLockExternalTasksOutputResult) (g : σ) (j : List Call) :
    ∃ more : List Call, (w.dispatch rs (g, j)).2.2 = j ++ more := by
  induction rs generalizing g j with
  | nil => exact ⟨[], by simp [WorkerPool.dispatch]⟩
  | cons r rest ih =>
    cases hget : w.taskHandlers.get? r.TopicName with
    | none => exact ⟨[], by simp [WorkerPool.dispatch, hget]⟩
    | some entry =>
      simp only [WorkerPool.dispatch, hget, TaskHandlerFunc.call]
      have hclient : (w.taskFor r).client = c.recording := by
        simp [WorkerPool.taskFor, NewTask, hrec]
      rw [hclient]
      obtain ⟨m1, h1⟩ := run_recording_journal c (entry.handler (w.taskFor r)) g j
      obtain ⟨m2, h2⟩ := ih (HandlerProg.run c.recording (entry.handler (w.taskFor r)) (g, j)).1
        (HandlerProg.run c.recording (entry.handler (w.taskFor r)) (g, j)).2
      refine ⟨m1 ++ m2, ?_⟩
      rw [show (HandlerProg.run c.recording (entry.handler (w.taskFor r)) (g, j)) =
        ((HandlerProg.run c.recording (entry.handler (w.taskFor r)) (g, j)).1,
          (HandlerProg.run c.recording (entry.handler (w.taskFor r)) (g, j)).2) from rfl, h2, h1]
      simp

theorem poll_recording_journal {σ : Type} (c : Client σ) (w : WorkerPool (σ × List Call))
    (hrec : w.cfg.BrokerClient = c.recording) (order : List (TaskHandlerEntry (σ × List Call)))
    (g : σ) (j : List Call) :
    ∃ more : List Call,
      (w.poll order (g, j)).2.2 = j ++ Call.fetchAndLock (w.fetchInput order) :: more := by
  cases hf : (w.cfg.BrokerClient.FetchAndLockExternalTasks (w.fetchInput order) (g, j)).1.2 with
  | some e =>
    rw [poll_of_fetch_error w order (g, j) e hf, hrec]
    exact ⟨[], rfl⟩
  | none =>
    rw [poll_of_fetch_ok w order (g, j) hf]
    obtain ⟨more, hmore⟩ := dispatch_recording_journal c w hrec
      (w.cfg.BrokerClient.FetchAndLockExternalTasks (w.fetchInput order) (g, j)).1.1.Results
      (w.cfg.BrokerClient.FetchAndLockExternalTasks (w.fetchInput order) (g, j)).2.1
      (w.cfg.BrokerClient.FetchAndLockExternalTasks (w.fetchInput order) (g, j)).2.2
    refine ⟨more, ?_⟩
    rw [show (w.cfg.BrokerClient.FetchAndLockExternalTasks (w.fetchInput order) (g, j)).2 =
      ((w.cfg.BrokerClient.FetchAndLockExternalTasks (w.fetchInput order) (g, j)).2.1,
        (w.cfg.BrokerClient.FetchAndLockExternalTasks (w.fetchInput order) (g, j)).2.2) from rfl,
      hmore, hrec]
    simp [Client.recording]

/-- C9. For a pool obtained from `NewWorkerPool cfg` by a sequence of
`RegisterExternalTaskHandler` calls, whatever the order in which the `range` of `poll`
visits the registry: the first thing `poll` does is one fetch-and-lock call with the
request it built; that request has the WorkerID, MaxTasks and UsePriority of `cfg`; its
Topics list is a permutation of the topics of the registrations that succeeded (so each of
them appears with the lock duration and process-definition filters it was registered with,
and nothing else appears); and no two entries of the list share a TopicName, so no topic
appears twice. -/
theorem fetch_request_lists_registered_topics {σ : Type} (c : Client σ)
    (cfg : WorkerPoolConfig (σ × List Call)) (hrec : cfg.BrokerClient = c.recording)
    (regs : List (Topic × TaskHandlerFunc (σ × List Call)))
    (order : List (TaskHandlerEntry (σ × List Call)))
    (horder : order.Perm ((NewWorkerPool cfg).registerAll regs).1.taskHandlers.values)
    (g : σ) (j : List Call) :
    (∃ more : List Call,
        (((NewWorkerPool cfg).registerAll regs).1.poll order (g, j)).2.2 =
          j ++ Call.fetchAndLock (((NewWorkerPool cfg).registerAll regs).1.fetchInput order) ::
            more) ∧
      (((NewWorkerPool cfg).registerAll regs).1.fetchInput order).WorkerID = cfg.WorkerID ∧
      (((NewWorkerPool cfg).registerAll regs).1.fetchInput order).MaxTasks = cfg.MaxTasks ∧
      (((NewWorkerPool cfg).registerAll regs).1.fetchInput order).UsePriority =
        cfg.UsePriority ∧
      (((NewWorkerPool cfg).registerAll regs).1.fetchInput order).Topics.Perm
        (successfulTopics regs ((NewWorkerPool cfg).registerAll regs).2) ∧
      ((((NewWorkerPool cfg).registerAll regs).1.fetchInput order).Topics.map
        Topic.TopicName).Nodup ∧
      (((NewWorkerPool cfg).registerAll regs).1.fetchInput order).Topics.Nodup := by
  obtain ⟨hcfg, hkeys, hnames, htopics⟩ := registerAll_spec regs (NewWorkerPool cfg)
    (by simp [NewWorkerPool, GoMap.make]) (by simp [NewWorkerPool, GoMap.make])
  have hperm : (order.map (fun taskHandler => taskHandler.topic)).Perm
      (successfulTopics regs ((NewWorkerPool cfg).registerAll regs).2) := by
    have h := horder.map (fun taskHandler => taskHandler.topic)
    rw [htopics] at h
    simpa [NewWorkerPool, GoMap.make, GoMap.values] using h
  have hnodup : ((order.map (fun taskHandler => taskHandler.topic)).map Topic.TopicName).Nodup := by
    have h := (horder.map (fun taskHandler => taskHandler.topic)).map Topic.TopicName
    refine h.nodup_iff.mpr ?_
    have hk : (((NewWorkerPool cfg).registerAll regs).1.taskHandlers.values.map
        (fun taskHandler => taskHandler.topic)).map Topic.TopicName =
        ((NewWorkerPool cfg).registerAll regs).1.taskHandlers.entries.map Prod.fst := by
      simp only [GoMap.values, List.map_map]
      exact List.map_congr_left (fun p hp => hnames p hp)
    rw [hk]
    exact hkeys
  refine ⟨poll_recording_journal c _ (by rw [hcfg]; exact hrec) order g j, ?_, ?_, ?_, ?_, ?_, ?_⟩
  · rw [fetchInput_eq, hcfg]; rfl
  · rw [fetchInput_eq, hcfg]; rfl
  · rw [fetchInput_eq, hcfg]; rfl
  · rw [fetchInput_eq]; exact hperm
  · rw [fetchInput_eq]; exact hnodup
  · rw [fetchInput_eq]; exact List.Nodup.of_map _ hnodup

/-! ## Concrete runs -/

/-- C1 on the pool of `cmd/task_worker.go`: a second registration under the name `build`
fails and the lookup still yields the first topic and handler. -/
theorem register_error_iff_already_registered_witness :
    (samplePool.RegisterExternalTaskHandler
        { buildTopic with LockDuration := 1 } failingHandler).2.isSome ∧
      (samplePool.RegisterExternalTaskHandler
        { buildTopic with LockDuration := 1 } failingHandler).1.taskHandlers.get? "build" =
          some { topic := buildTopic, handler := buildHandler } :=
  (register_error_iff_already_registered (NewWorkerPool sampleConfig) buildTopic buildHandler
    { buildTopic with LockDuration := 1 } failingHandler).2.2 rfl rfl

/-- C2 on the sample pool: one fetched task of topic `build`, one handler call. -/
theorem poll_invokes_registered_handlers_in_order_witness :
    ∃ invocations : List (TaskHandlerFunc (Script × List Call) × Task (Script × List Call)),
      invocations.length = 1 ∧
      samplePool.poll samplePool.taskHandlers.values (oneTaskScript, []) =
        (Outcome.returned none,
          runInvocations invocations
            ({ oneTaskScript with fetches := [] },
              [Call.fetchAndLock (samplePool.fetchInput samplePool.taskHandlers.values)])) := by
  obtain ⟨invocations, hlen, _, hrun⟩ :=
    poll_invokes_registered_handlers_in_order samplePool samplePool.taskHandlers.values
      (oneTaskScript, []) (by rfl) (by decide)
  exact ⟨invocations, hlen, hrun⟩

/-- C3 on the sample pool: the second fetch fails, `Listen` returns that error after the
second fetch call, with a third cycle to spare. -/
theorem fetch_error_aborts_listen_witness :
    samplePool.Listen noSleep
        [samplePool.taskHandlers.values, samplePool.taskHandlers.values,
          samplePool.taskHandlers.values]
        (flakyScript, []) =
      (ListenOutcome.returned (GoError.external "connection refused"),
        ({ flakyScript with fetches := [] },
          [Call.fetchAndLock (samplePool.fetchInput samplePool.taskHandlers.values),
            Call.complete
              { ExternalTaskID := "t1", WorkerID := "test", Variables := buildTask.Variables },
            Call.fetchAndLock (samplePool.fetchInput samplePool.taskHandlers.values)])) :=
  (fetch_error_aborts_listen scripted samplePool rfl noSleep [samplePool.taskHandlers.values]
    [samplePool.taskHandlers.values] samplePool.taskHandlers.values (flakyScript, [])
    ({ flakyScript with
        fetches := [({ Results := [] }, some (GoError.external "connection refused"))] },
      [Call.fetchAndLock (samplePool.fetchInput samplePool.taskHandlers.values),
        Call.complete
          { ExternalTaskID := "t1", WorkerID := "test", Variables := buildTask.Variables }])
    (GoError.external "connection refused") (by rfl) (by rfl)).2.1

/-- C4 on the sample pool: a fetched task of the unregistered topic `deploy`. -/
theorem poll_panics_on_unregistered_topic_witness :
    (samplePool.poll samplePool.taskHandlers.values (strayTaskScript, [])).1 =
      Outcome.panicked :=
  (poll_panics_on_unregistered_topic samplePool samplePool.taskHandlers.values
    (strayTaskScript, []) (by rfl) strayTask (by decide) (by rfl)).1

/-- C5 on the sample pool: the handler stores the empty map in the Task built for
`buildTask` (fetched with one variable) and calls `Complete`; the request carries the empty
map. -/
theorem complete_request_carries_task_fields_witness :
    (Task.Complete { samplePool.taskFor buildTask with Variables := [] }
        (oneTaskScript, [])).2.2 =
      [] ++ [Call.complete { ExternalTaskID := "t1", WorkerID := "test", Variables := [] }] :=
  (complete_request_carries_task_fields scripted samplePool rfl buildTask []
    (fun _ => HandlerProg.ret) oneTaskScript []).1

/-- C6 on the sample pool: the request of `Fail` on the Task built for `buildTask`, after
an error message and a retry count were stored in it. -/
theorem fail_request_carries_only_ids_witness :
    (Task.Fail
        { samplePool.taskFor buildTask with
          ErrorMessage := "boom", ErrorDetails := "stack", Retries := 3 }
        (oneTaskScript, [])).2.2 =
      [] ++ [Call.fail
        { ExternalTaskID := "t1", WorkerID := "test", ErrorMessage := "", ErrorDetails := "",
          Retries := 0, RetryTimeout := 0 }] :=
  (fail_request_carries_only_ids scripted samplePool rfl buildTask "boom" "stack" 3
    oneTaskScript []).2

/-- C7 on a transport answering 404 with message "gone". -/
theorem report_error_mapping_witness :
    ((New { BrokerURL := "http://broker" } (cannedNet 404)).CompleteExternalTask
        { WorkerID := "test", ExternalTaskID := "t1", Variables := [] } ()).1 =
      some (GoError.Wrap ErrProcessNotFound "gone") :=
  (report_error_mapping { BrokerURL := "http://broker" } (cannedNet 404)
    { WorkerID := "test", ExternalTaskID := "t1", Variables := [] }
    { WorkerID := "test", ExternalTaskID := "t1", ErrorMessage := "", ErrorDetails := "",
      Retries := 0, RetryTimeout := 0 }
    () () () () "" "" { StatusCode := 404, Body := "gone" } { StatusCode := 404, Body := "gone" }
    404 "gone" rfl rfl rfl rfl rfl rfl rfl rfl).2.2.1 rfl

/-- C8 on the sample pool: two `Complete` calls on one Task, two gateway calls, each
result surfaced. -/
theorem task_report_is_one_gateway_call_witness :
    Task.Complete (samplePool.taskFor buildTask)
        (Task.Complete (samplePool.taskFor buildTask) (oneTaskScript, [])).2 =
      (some (GoError.Wrap ErrProcessNotFound "gone"),
        (oneTaskScript,
          [] ++ [Call.complete
              { ExternalTaskID := "t1", WorkerID := "test", Variables := buildTask.Variables },
            Call.complete
              { ExternalTaskID := "t1", WorkerID := "test",
                Variables := buildTask.Variables }])) :=
  (task_report_is_one_gateway_call scripted (samplePool.taskFor buildTask) rfl
    oneTaskScript []).2.1

/-- C9 on three registrations of which the second one fails, the registry being visited
last entry first. -/
theorem fetch_request_lists_registered_topics_witness :
    (((NewWorkerPool sampleConfig).registerAll sampleRegistrations).1.fetchInput
        [{ topic := deployTopic, handler := failingHandler },
          { topic := buildTopic, handler := buildHandler }]).Topics.Perm
      [buildTopic, deployTopic] :=
  (fetch_request_lists_registered_topics scripted sampleConfig rfl sampleRegistrations
    [{ topic := deployTopic, handler := failingHandler },
      { topic := buildTopic, handler := buildHandler }]
    (List.Perm.swap _ _ []) oneTaskScript []).2.2.2.2.1

/-- C10 on the sample pool: the handler's complete call fails, `poll` returns nil. -/
theorem listen_fails_only_on_fetch_error_witness :
    (samplePool.poll samplePool.taskHandlers.values (oneTaskScript, [])).1 =
      Outcome.returned none :=
  (listen_fails_only_on_fetch_error noSleep samplePool samplePool.taskHandlers.values []
    (oneTaskScript, [])).1 (by rfl) (by decide)

end Camunda
